import Mathlib

/-!
Shallow embedding of the worker orchestration core of aiotaskqueue
(src/aiotaskqueue/worker.py) and verification of the specified properties.

The embedding translates the Python source into executable Lean functions:

* the per-message body of the intake loop (AsyncWorker.run, lines 119-140),
* one executor of the pool (AsyncWorker._worker, lines 165-196),
* the shutdown sequence (AsyncWorker._shutdown_tasks, lines 142-160),
* parameter-type based dependency injection
  (_dependencies_to_inject, lines 34-44, and AsyncWorker._call_task_fn,
  lines 198-216),
* the dispatch channel construction (line 86).

Cooperative concurrency is embedded by an explicit schedule: a list of
decisions recording, for each iteration of a loop, which of the raced
awaitables completed and whether the stop event was set at that point.
External collaborators (broker, result backend, serialization) are embedded
at their interface contracts as stated in the design document.
-/

set_option autoImplicit false

/-! ## Basic data -/

/-- A Python runtime value as far as the worker core inspects it: either the
shared execution-context object (identified by the identity of the instance)
or an opaque payload value. -/
inductive PyVal where
  | ctxVal (instanceId : Nat)
  | payload (s : String)
deriving DecidableEq, Repr

/-- The Python exceptions that the worker core can raise or observe. -/
inductive PyErr where
  | keyError
  | valueError
  | timeoutError
  | cancelledError
  | userError (s : String)
deriving DecidableEq, Repr

/-- TaskRecord (aiotaskqueue.serialization): the decoded wire message with
its unique id, registered task name and redelivery count.  The serialized
argument payload is opaque to the worker core and omitted. -/
structure TaskRecord where
  id : String
  task_name : String
  requeue_count : Nat
deriving DecidableEq, Repr

/-- BrokerTask (aiotaskqueue.tasks): a TaskRecord plus broker delivery
metadata; the metadata is opaque to the worker core. -/
structure BrokerTask where
  task : TaskRecord
deriving DecidableEq, Repr

/-! ## Python dict as an association list

_active_tasks and the result backend are Python dicts keyed by task id.
A dict is embedded as a list of key-value pairs in insertion order with
unique keys; update replaces in place, pop removes. -/

/-- Lookup in a Python dict: d[k] as an Option. -/
def dictGet {α : Type} (k : String) : List (String × α) → Option α
  | [] => none
  | p :: rest => if p.1 = k then some p.2 else dictGet k rest

/-- Python dict item assignment d[k] = v: replaces the value in place if the
key is present, otherwise appends the new entry. -/
def dictInsert {α : Type} (k : String) (v : α) : List (String × α) → List (String × α)
  | [] => [(k, v)]
  | p :: rest => if p.1 = k then (k, v) :: rest else p :: dictInsert k v rest

/-- Python dict.pop(k, None): removes the entry with the given key when
present, otherwise leaves the dict unchanged. -/
def dictPop {α : Type} (k : String) : List (String × α) → List (String × α)
  | [] => []
  | p :: rest => if p.1 = k then dictPop k rest else p :: dictPop k rest

/-- The keys of an embedded dict, in order. -/
def dictKeys {α : Type} (d : List (String × α)) : List String :=
  d.map Prod.fst

/-! ## Intake loop (AsyncWorker.run, worker.py lines 119-140)

The loop races each broker read against the stop event, and on a completed
read iterates over the returned batch.  Observable actions are recorded as
trace events. -/

/-- Observable events of the intake loop. -/
inductive IntakeEv where
  /-- A broker read task is created (asyncio.create_task(self._broker.read())). -/
  | readIssued
  /-- The point at which the stop event is (observed to be) set. -/
  | stopSet
  /-- An outstanding read task is cancelled (read_task.cancel()). -/
  | readCancelled
  /-- await self._broker.ack(message). -/
  | ackMsg (m : BrokerTask)
  /-- await send.send(message): the message enters the dispatch channel. -/
  | sendMsg (m : BrokerTask)
deriving DecidableEq, Repr

/-- worker.py lines 130-137, the body of the for-loop over one batch:
if the requeue count has reached max_delivery_attempts the message is
acknowledged, and then — with no continue statement — control falls through
to send.send(message) unconditionally. -/
def processMessage (maxDeliveryAttempts : Nat) (m : BrokerTask) : List IntakeEv :=
  (if maxDeliveryAttempts ≤ m.task.requeue_count then [IntakeEv.ackMsg m] else [])
    ++ [IntakeEv.sendMsg m]

/-- The whole for-loop over a batch returned by one broker read. -/
def processBatch (maxDeliveryAttempts : Nat) : List BrokerTask → List IntakeEv
  | [] => []
  | m :: rest => processMessage maxDeliveryAttempts m ++ processBatch maxDeliveryAttempts rest

/-- One scheduling decision for an iteration of the intake loop: either the
stop event fires while the broker read is still outstanding (asyncio.wait
returns with read_task not done), or the read completes with a batch.
stopObserved records the adversarial case in which the stop event is also
set by the time the loop resumes after the wait (both racers completed), so
that the stop precedes the processing of the batch. -/
inductive IntakeSched where
  | stopDuringRead
  | batch (msgs : List BrokerTask) (stopObserved : Bool)
deriving Repr

/-- worker.py lines 119-140: the intake loop, driven by a schedule.  Each
iteration creates a read task; if the stop event fires first the read is
cancelled and the loop breaks; otherwise the batch is processed (acks and
sends) and the loop breaks afterwards iff the stop event is set at the
check on line 139.  An exhausted schedule truncates the observation. -/
def intakeLoop (maxDeliveryAttempts : Nat) : List IntakeSched → List IntakeEv
  | [] => []
  | IntakeSched.stopDuringRead :: _ =>
      [IntakeEv.readIssued, IntakeEv.stopSet, IntakeEv.readCancelled]
  | IntakeSched.batch msgs stopObserved :: rest =>
      IntakeEv.readIssued ::
        (if stopObserved then
          IntakeEv.stopSet :: processBatch maxDeliveryAttempts msgs
        else
          processBatch maxDeliveryAttempts msgs ++ intakeLoop maxDeliveryAttempts rest)

/-- The suffix of a trace strictly after the first stopSet event
(empty when no stopSet occurs). -/
def afterFirstStop : List IntakeEv → List IntakeEv
  | [] => []
  | IntakeEv.stopSet :: rest => rest
  | _ :: rest => afterFirstStop rest

/-- True of an event that is not a broker read issuance. -/
def isNotReadIssued : IntakeEv → Bool
  | IntakeEv.readIssued => false
  | _ => true

/-- True of an event that is neither a broker read issuance nor a send into
the dispatch channel. -/
def isNotReadOrSend : IntakeEv → Bool
  | IntakeEv.readIssued => false
  | IntakeEv.sendMsg _ => false
  | _ => true

/-- The monotonic-stop property as claimed: once the stop event is set, the
intake loop neither issues a broker read nor sends a message into the
dispatch channel. -/
def intakeStopMonotonic (tr : List IntakeEv) : Bool :=
  (afterFirstStop tr).all isNotReadOrSend

/-- The weaker property: once the stop event is set, the intake loop issues
no further broker read. -/
def noReadAfterStop (tr : List IntakeEv) : Bool :=
  (afterFirstStop tr).all isNotReadIssued

/-! ## Executor (AsyncWorker._worker, worker.py lines 165-196)

One executor receives broker tasks from the dispatch channel and runs each
end to end.  The outcome of the middleware-wrapped task call
(AsyncWorker._call_task_fn) is abstracted by an oracle, since the claims
quantify over it.  The ack context is embedded at its contract from the
design document: it commits an acknowledgment on normal exit of the block
and leaves the message unacknowledged when an exception escapes. -/

/-- Observable events of one executor. -/
inductive Ev where
  /-- self._active_tasks[id] = broker_task (line 167). -/
  | insertActive (id : String)
  /-- Successful registry lookup self._tasks.tasks[name] (line 169). -/
  | lookupOk (taskName : String)
  /-- The ack context commits the acknowledgment on normal exit (line 171). -/
  | ackCommit (id : String)
  /-- Hook i of _ext_on_task_exception is invoked with the exception (lines 176-182). -/
  | excHook (i : Nat) (id : String) (e : PyErr)
  /-- self._active_tasks.pop(id, None) in the finally block (line 185). -/
  | popActive (id : String)
  /-- await self._result_backend.set(task_id, value) (line 188). -/
  | storeResult (id : String) (v : PyVal)
  /-- Hook i of _ext_on_task_completion is invoked with the result (lines 190-196). -/
  | compHook (i : Nat) (id : String) (v : PyVal)
deriving DecidableEq, Repr

/-- The outcome of awaiting _call_task_fn inside the ack context: a value,
an Exception caught by the except clause, or a cancellation (a
BaseException that the except Exception clause does not catch). -/
inductive Outcome where
  | ok (v : PyVal)
  | raised (e : PyErr)
  | cancelled
deriving DecidableEq, Repr

/-- The worker configuration visible to one executor: the registered task
names, the number of on-exception and on-completion extensions, and whether
a result backend is configured. -/
structure WorkerCfg where
  registry : List String
  numExcHooks : Nat
  numCompHooks : Nat
  hasResultBackend : Bool
deriving DecidableEq, Repr

/-- The mutable state an executor touches: the in-flight registry
_active_tasks and the result backend contents.  The result backend is
embedded at its contract set(task_id, value). -/
structure WorkerState where
  active : List (String × BrokerTask)
  results : List (String × PyVal)
deriving DecidableEq, Repr

/-- The result of processing one received broker task: the emitted events,
the state afterwards, and — when an exception escaped the loop body — the
error that terminates the executor coroutine. -/
structure StepResult where
  evs : List Ev
  st : WorkerState
  died : Option PyErr
deriving DecidableEq, Repr

/-- worker.py lines 166-196, the body of the async-for for one message:

1. insert into _active_tasks (line 167);
2. registry lookup (line 169) — OUTSIDE the try statement, so an unknown
   task name raises KeyError out of the coroutine with no cleanup;
3. try: ack context around the task call; on a value the context commits
   the ack, then the finally block pops the id, then the result is stored
   (if a backend is configured) and the on-completion hooks run in order;
   on an Exception the except clause runs the on-exception hooks in order,
   then the finally block pops the id and the loop continues; on a
   cancellation the except clause does not match, the finally block pops
   the id and the CancelledError propagates. -/
def execOne (cfg : WorkerCfg) (execFn : TaskRecord → Outcome) (st : WorkerState)
    (bt : BrokerTask) : StepResult :=
  let tid := bt.task.id
  let activeIns := dictInsert tid bt st.active
  if cfg.registry.contains bt.task.task_name then
    match execFn bt.task with
    | Outcome.ok v =>
        ⟨[Ev.insertActive tid, Ev.lookupOk bt.task.task_name, Ev.ackCommit tid,
            Ev.popActive tid]
          ++ (if cfg.hasResultBackend then [Ev.storeResult tid v] else [])
          ++ (List.range cfg.numCompHooks).map (fun i => Ev.compHook i tid v),
         ⟨dictPop tid activeIns,
          if cfg.hasResultBackend then dictInsert tid v st.results else st.results⟩,
         none⟩
    | Outcome.raised e =>
        ⟨[Ev.insertActive tid, Ev.lookupOk bt.task.task_name]
          ++ (List.range cfg.numExcHooks).map (fun i => Ev.excHook i tid e)
          ++ [Ev.popActive tid],
         ⟨dictPop tid activeIns, st.results⟩,
         none⟩
    | Outcome.cancelled =>
        ⟨[Ev.insertActive tid, Ev.lookupOk bt.task.task_name, Ev.popActive tid],
         ⟨dictPop tid activeIns, st.results⟩,
         some PyErr.cancelledError⟩
  else
    ⟨[Ev.insertActive tid], ⟨activeIns, st.results⟩, some PyErr.keyError⟩

/-- worker.py line 166: the async-for of one executor over the messages it
receives from its dispatch-channel handle.  Processing stops early when an
exception escapes the loop body (the executor coroutine dies). -/
def workerLoop (cfg : WorkerCfg) (execFn : TaskRecord → Outcome) (st : WorkerState) :
    List BrokerTask → StepResult
  | [] => ⟨[], st, none⟩
  | bt :: rest =>
      let r := execOne cfg execFn st bt
      match r.died with
      | some e => ⟨r.evs, r.st, some e⟩
      | none =>
          let r2 := workerLoop cfg execFn r.st rest
          ⟨r.evs ++ r2.evs, r2.st, r2.died⟩

/-- Number of occurrences of an event in a trace. -/
def countEv (e : Ev) : List Ev → Nat
  | [] => 0
  | x :: rest => (if x = e then 1 else 0) + countEv e rest

/-- True iff the trace contains an insertActive for the id, and a popActive
for the id occurs strictly after the first such insert (and not before). -/
def insertBeforePop (tid : String) : List Ev → Bool
  | [] => false
  | Ev.insertActive i :: rest =>
      if i = tid then decide (Ev.popActive tid ∈ rest)
      else insertBeforePop tid rest
  | Ev.popActive i :: rest =>
      if i = tid then false else insertBeforePop tid rest
  | _ :: rest => insertBeforePop tid rest

/-- True iff some popActive for the id occurs and a storeResult for the id
occurs strictly after it. -/
def popBeforeStore (tid : String) : List Ev → Bool
  | [] => false
  | Ev.popActive i :: rest =>
      if i = tid then
        rest.any (fun e =>
          match e with
          | Ev.storeResult j _ => j = tid
          | _ => false)
      else popBeforeStore tid rest
  | _ :: rest => popBeforeStore tid rest

/-! ## Shutdown (AsyncWorker._shutdown_tasks, worker.py lines 142-160)

The finally block of the context manager: stop, close the send side, then a
bounded wait that may raise TimeoutError, caught by the except clause that
cancels every tracked task and waits again without a bound. -/

/-- Observable steps of the shutdown sequence. -/
inductive ShEv where
  /-- self.stop(): the stop event is set (line 149). -/
  | setStopSignal
  /-- send.close(): the send side of the dispatch channel is closed (line 150). -/
  | closeSendChannel
  /-- await asyncio.wait(tasks) under asyncio.timeout(shutdown_deadline) (lines 152-156). -/
  | waitBounded
  /-- task.cancel() for tracked task i (lines 158-159). -/
  | cancelTracked (i : Nat)
  /-- The final unbounded await asyncio.wait(tasks) (line 160). -/
  | waitUnbounded
deriving DecidableEq, Repr

/-- The bounded wait: raises TimeoutError iff the shutdown deadline elapses
before the tracked tasks finish. -/
def boundedWaitOutcome (timedOut : Bool) : Except PyErr Unit :=
  if timedOut then Except.error PyErr.timeoutError else Except.ok ()

/-- worker.py lines 148-160: the shutdown sequence, parameterized by whether
the deadline elapsed and the number of tracked background tasks.  Returns
the steps performed, or the exception surfacing to the caller if one
escapes (the except clause catches exactly TimeoutError). -/
def shutdownTasks (timedOut : Bool) (numTracked : Nat) : Except PyErr (List ShEv) :=
  match boundedWaitOutcome timedOut with
  | Except.ok _ =>
      Except.ok [ShEv.setStopSignal, ShEv.closeSendChannel, ShEv.waitBounded]
  | Except.error PyErr.timeoutError =>
      Except.ok ([ShEv.setStopSignal, ShEv.closeSendChannel, ShEv.waitBounded]
        ++ (List.range numTracked).map ShEv.cancelTracked ++ [ShEv.waitUnbounded])
  | Except.error e => Except.error e

/-! ## Dependency injection (_dependencies_to_inject, worker.py lines 34-44,
and the injection loop of _call_task_fn, lines 208-216) -/

/-- A Python type object as compared by the injection machinery: the
ExecutionContext class or any other class. -/
inductive PyType where
  | executionContextType
  | otherType (name : String)
deriving DecidableEq, Repr

/-- One parameter of a task function signature: its name and its declared
annotation (none embeds inspect.Parameter.empty). -/
structure Param where
  name : String
  annot : Option PyType
deriving DecidableEq, Repr

/-- worker.py lines 34-44: collects, in signature order, the parameters
whose declared annotation is one of the requested injectable types, as a
mapping from parameter name to annotation. -/
def dependencies_to_inject (params : List Param) (types : List PyType) :
    List (String × PyType) :=
  params.filterMap (fun p =>
    match p.annot with
    | some t => if types.contains t then some (p.name, t) else none
    | none => none)

/-- Python dict.setdefault(k, v): inserts the value only when the key is
absent; an existing entry is kept unchanged. -/
def kwSetdefault (k : String) (v : PyVal) (kw : List (String × PyVal)) :
    List (String × PyVal) :=
  if (dictGet k kw).isSome then kw else kw ++ [(k, v)]

/-- worker.py lines 212-216, the body of the injection loop for one entry:
if the annotation is the ExecutionContext class the shared context instance
is chosen, otherwise ValueError is raised; then kwargs.setdefault. -/
def injectStep (sharedCtx : PyVal) (acc : Except PyErr (List (String × PyVal)))
    (kv : String × PyType) : Except PyErr (List (String × PyVal)) :=
  match acc with
  | Except.error e => Except.error e
  | Except.ok kw =>
      match kv.2 with
      | PyType.executionContextType => Except.ok (kwSetdefault kv.1 sharedCtx kw)
      | PyType.otherType _ => Except.error PyErr.valueError

/-- worker.py lines 208-216: the injection loop of _call_task_fn, folded
over _dependencies_to_inject(func, types=(ExecutionContext,)).  The kwargs
input is the keyword-argument dict produced by deserialize_task (an
external collaborator, so it is a parameter here). -/
def injectDependencies (sharedCtx : PyVal) (params : List Param)
    (kwargs : List (String × PyVal)) : Except PyErr (List (String × PyVal)) :=
  (dependencies_to_inject params [PyType.executionContextType]).foldl
    (injectStep sharedCtx) (Except.ok kwargs)

/-- The per-worker part of AsyncWorker relevant to injection: the single
ExecutionContext instance built once in __init__ (worker.py lines 65-71),
identified by its object identity. -/
structure AsyncWorkerCtx where
  contextInstance : Nat
deriving DecidableEq, Repr

/-- The shared execution context of the worker, as a runtime value. -/
def AsyncWorkerCtx.sharedExecutionContext (w : AsyncWorkerCtx) : PyVal :=
  PyVal.ctxVal w.contextInstance

/-- The injection stage of AsyncWorker._call_task_fn: every call uses the
single execution context stored on the worker instance. -/
def callTaskInjection (w : AsyncWorkerCtx) (params : List Param)
    (kwargs : List (String × PyVal)) : Except PyErr (List (String × PyVal)) :=
  injectDependencies w.sharedExecutionContext params kwargs

/-! ## Dispatch channel (worker.py line 86) -/

/-- An anyio memory object stream as far as the worker configures it: its
buffer capacity. -/
structure MemoryObjectStream where
  maxBufferSize : Nat
deriving DecidableEq, Repr

/-- Modelled from the spec: the anyio library (an external collaborator) is
not part of this repository; its documented default for the
max_buffer_size parameter of create_memory_object_stream is 0. -/
def anyioDefaultMaxBufferSize : Nat := 0

/-- anyio.create_memory_object_stream with an explicit buffer capacity. -/
def create_memory_object_stream (maxBufferSize : Nat) : MemoryObjectStream :=
  ⟨maxBufferSize⟩

/-- worker.py line 86: the dispatch channel is created with no argument,
hence with the anyio default buffer capacity. -/
def dispatchChannel : MemoryObjectStream :=
  create_memory_object_stream anyioDefaultMaxBufferSize

/-- Modelled from the spec: anyio memory-object-stream send semantics — a
send completes immediately iff a receiver is currently waiting or the
buffer has room; otherwise the sender suspends. -/
def sendCompletesImmediately (ch : MemoryObjectStream) (buffered : Nat)
    (waitingReceivers : Nat) : Bool :=
  decide (buffered < ch.maxBufferSize) || decide (0 < waitingReceivers)

/-! ## Concrete inputs used by witnesses and counterexamples -/

/-- A delivery-exhausted message: requeue_count 3. -/
def msgExhausted : BrokerTask := ⟨⟨"task-1", "test-task", 3⟩⟩

/-- A fresh message: requeue_count 0. -/
def msgFresh : BrokerTask := ⟨⟨"m1", "test-task", 0⟩⟩

/-- A message whose task name is not registered. -/
def btUnknown : BrokerTask := ⟨⟨"u1", "missing-task", 0⟩⟩

/-- A message whose task name is registered. -/
def btKnown : BrokerTask := ⟨⟨"k1", "test-task", 0⟩⟩

/-- A configuration with one task registered, one hook of each kind and a
result backend. -/
def cfgRB : WorkerCfg := ⟨["test-task"], 1, 1, true⟩

/-- An execution oracle under which every task call returns a value. -/
def execOkFn : TaskRecord → Outcome := fun _ => Outcome.ok (PyVal.payload "r")

/-- An execution oracle under which every task call raises. -/
def execRaiseFn : TaskRecord → Outcome := fun _ => Outcome.raised (PyErr.userError "boom")

/-- The empty worker state. -/
def emptyState : WorkerState := ⟨[], []⟩

/-! ## Helper lemmas -/

theorem dictGet_insert_self {α : Type} (k : String) (v : α) (d : List (String × α)) :
    dictGet k (dictInsert k v d) = some v := by
  induction d with
  | nil => simp [dictInsert, dictGet]
  | cons p rest ih =>
      by_cases h : p.1 = k
      · simp [dictInsert, dictGet, h]
      · simp [dictInsert, dictGet, h, ih]

theorem dictInsert_of_get_none {α : Type} (k : String) (v : α) (d : List (String × α))
    (h : dictGet k d = none) : dictInsert k v d = d ++ [(k, v)] := by
  induction d with
  | nil => simp [dictInsert]
  | cons p rest ih =>
      by_cases hp : p.1 = k
      · simp [dictGet, hp] at h
      · simp [dictGet, hp] at h
        simp [dictInsert, hp, ih h]

theorem dictPop_of_get_none {α : Type} (k : String) (d : List (String × α))
    (h : dictGet k d = none) : dictPop k d = d := by
  induction d with
  | nil => simp [dictPop]
  | cons p rest ih =>
      by_cases hp : p.1 = k
      · simp [dictGet, hp] at h
      · simp [dictGet, hp] at h
        simp [dictPop, hp, ih h]

theorem dictPop_append {α : Type} (k : String) (l1 l2 : List (String × α)) :
    dictPop k (l1 ++ l2) = dictPop k l1 ++ dictPop k l2 := by
  induction l1 with
  | nil => simp [dictPop]
  | cons p rest ih =>
      by_cases hp : p.1 = k
      · simp [dictPop, hp, ih]
      · simp [dictPop, hp, ih]

theorem dictPop_insert_fresh {α : Type} (k : String) (v : α) (d : List (String × α))
    (h : dictGet k d = none) : dictPop k (dictInsert k v d) = d := by
  rw [dictInsert_of_get_none k v d h, dictPop_append, dictPop_of_get_none k d h]
  simp [dictPop]

theorem dictGet_eq_none_iff_not_mem_keys {α : Type} (k : String) (d : List (String × α)) :
    dictGet k d = none ↔ k ∉ dictKeys d := by
  induction d with
  | nil => simp [dictGet, dictKeys]
  | cons p rest ih =>
      by_cases hp : p.1 = k
      · subst hp
        simp [dictGet, dictKeys]
      · rw [dictGet]
        rw [if_neg hp]
        rw [ih]
        have hk : ¬ k = p.1 := fun hh => hp hh.symm
        simp [dictKeys, hk]

/-! ## C1 -/

/-- C1: the claim states that a message whose requeue count has reached
max_delivery_attempts is acknowledged and never sent into the dispatch
channel.  Evaluating the intake loop at a concrete exhausted message
(requeue_count 3, max_delivery_attempts 3) shows the code acknowledges the
message and then still sends it into the dispatch channel: the for-loop
body of worker.py lines 130-137 has no continue statement after the ack, so
control falls through to send.send(message). -/
theorem c1_code_bug_eval :
    intakeLoop 3 [IntakeSched.batch [msgExhausted] false] =
      [IntakeEv.readIssued, IntakeEv.ackMsg msgExhausted, IntakeEv.sendMsg msgExhausted] ∧
    IntakeEv.sendMsg msgExhausted ∈ intakeLoop 3 [IntakeSched.batch [msgExhausted] false] := by
  decide

/-! ## C2 -/

/-- C2 counterexample: with registry ["test-task"], an executor that
receives a message named "missing-task" followed by a registered message
dies with a KeyError: the trace stops at the in-flight insert, the error
propagates out of the loop, and the second message is never processed. -/
theorem c2_counterexample :
    (workerLoop cfgRB execOkFn emptyState [btUnknown, btKnown]).died = some PyErr.keyError ∧
    (workerLoop cfgRB execOkFn emptyState [btUnknown, btKnown]).evs = [Ev.insertActive "u1"] ∧
    Ev.insertActive "k1" ∉ (workerLoop cfgRB execOkFn emptyState [btUnknown, btKnown]).evs := by
  decide

/-- C2 amended: for every received BrokerTask whose task name is not in the
registry, the name lookup (which precedes the try statement) raises a
KeyError that propagates out of the executor loop, terminating that
executor; no hook fires for that task, the message is not acknowledged, the
id stays in the in-flight registry, and the remaining messages are not
processed. -/
theorem c2_amended_unknown_name (cfg : WorkerCfg) (f : TaskRecord → Outcome)
    (st : WorkerState) (bt : BrokerTask) (rest : List BrokerTask)
    (h : bt.task.task_name ∉ cfg.registry) :
    workerLoop cfg f st (bt :: rest) =
      ⟨[Ev.insertActive bt.task.id],
       ⟨dictInsert bt.task.id bt st.active, st.results⟩,
       some PyErr.keyError⟩ := by
  simp [workerLoop, execOne, h]

/-- Witness for the amended C2 at a concrete unknown-name message. -/
theorem c2_amended_witness :
    btUnknown.task.task_name ∉ cfgRB.registry ∧
    workerLoop cfgRB execOkFn emptyState [btUnknown] =
      ⟨[Ev.insertActive btUnknown.task.id],
       ⟨dictInsert btUnknown.task.id btUnknown emptyState.active, emptyState.results⟩,
       some PyErr.keyError⟩ :=
  ⟨by decide, c2_amended_unknown_name cfgRB execOkFn emptyState btUnknown [] (by decide)⟩

/-! ## C3 -/

/-- C3 counterexample: on a concrete successful execution with a result
backend and one completion hook, the popActive event (step 9 of the spec)
occurs strictly before the storeResult event and the completion hook (step
8): the pop sits in the finally block of the try statement, which runs when
the try block exits, before the code that stores the result and fires the
hooks. -/
theorem c3_counterexample :
    (execOne cfgRB execOkFn emptyState btKnown).evs =
      [Ev.insertActive "k1", Ev.lookupOk "test-task", Ev.ackCommit "k1", Ev.popActive "k1",
       Ev.storeResult "k1" (PyVal.payload "r"), Ev.compHook 0 "k1" (PyVal.payload "r")] ∧
    popBeforeStore "k1" (execOne cfgRB execOkFn emptyState btKnown).evs = true := by
  decide

/-- C3 amended: within one executor the per-task steps on the success path
happen strictly in the order: in-flight insert, registry lookup, ack
commit, removal from the in-flight registry, result storage, completion
hooks in registration order — i.e. the removal happens immediately after
the acknowledgment and BEFORE result storage and the on-completion hooks. -/
theorem c3_amended_success_order (cfg : WorkerCfg) (f : TaskRecord → Outcome)
    (st : WorkerState) (bt : BrokerTask) (v : PyVal)
    (hreg : bt.task.task_name ∈ cfg.registry)
    (hexec : f bt.task = Outcome.ok v)
    (hrb : cfg.hasResultBackend = true) :
    (execOne cfg f st bt).evs =
      [Ev.insertActive bt.task.id, Ev.lookupOk bt.task.task_name, Ev.ackCommit bt.task.id,
       Ev.popActive bt.task.id, Ev.storeResult bt.task.id v]
      ++ (List.range cfg.numCompHooks).map (fun i => Ev.compHook i bt.task.id v) := by
  simp [execOne, hreg, hexec, hrb]

/-- Witness for the amended C3 at a concrete successful execution. -/
theorem c3_amended_witness :
    btKnown.task.task_name ∈ cfgRB.registry ∧
    execOkFn btKnown.task = Outcome.ok (PyVal.payload "r") ∧
    cfgRB.hasResultBackend = true ∧
    (execOne cfgRB execOkFn emptyState btKnown).evs =
      [Ev.insertActive btKnown.task.id, Ev.lookupOk btKnown.task.task_name,
       Ev.ackCommit btKnown.task.id, Ev.popActive btKnown.task.id,
       Ev.storeResult btKnown.task.id (PyVal.payload "r")]
      ++ (List.range cfgRB.numCompHooks).map (fun i => Ev.compHook i btKnown.task.id (PyVal.payload "r")) :=
  ⟨by decide, by decide, by decide,
   c3_amended_success_order cfgRB execOkFn emptyState btKnown (PyVal.payload "r")
     (by decide) (by decide) (by decide)⟩

/-! ## C7 -/

/-- C7: the shutdown sequence always sets the stop signal and closes the
send side of the dispatch channel, then performs the deadline-bounded wait;
when the deadline elapses first it cancels every tracked background task
and waits again without a bound; and in both cases it returns normally —
the TimeoutError is caught, so no exception surfaces to the caller. -/
theorem c7_shutdown_sequence (timedOut : Bool) (numTracked : Nat) :
    shutdownTasks timedOut numTracked =
      Except.ok ([ShEv.setStopSignal, ShEv.closeSendChannel, ShEv.waitBounded]
        ++ (if timedOut then
              (List.range numTracked).map ShEv.cancelTracked ++ [ShEv.waitUnbounded]
            else [])) ∧
    ∀ e : PyErr, shutdownTasks timedOut numTracked ≠ Except.error e := by
  cases timedOut <;> simp [shutdownTasks, boundedWaitOutcome]

/-! ## C8 -/

/-- C8 counterexample: a schedule in which the broker read completes and
the stop event is set by the time the intake loop resumes (both racers of
asyncio.wait completed).  Because read_task.done() is true, the loop
processes the batch anyway: a message is sent into the dispatch channel
after the stop event is set, refuting the claimed monotonicity. -/
theorem c8_counterexample :
    intakeLoop 3 [IntakeSched.batch [msgFresh] true] =
      [IntakeEv.readIssued, IntakeEv.stopSet, IntakeEv.sendMsg msgFresh] ∧
    intakeStopMonotonic (intakeLoop 3 [IntakeSched.batch [msgFresh] true]) = false := by
  decide

/-! ## C10 -/

/-- C10: the dispatch channel is created with buffer capacity 0 (the anyio
default, since worker.py line 86 passes no argument), so a send completes
immediately iff a receiver is simultaneously waiting: the effective
capacity C of the backpressure property is 0. -/
theorem c10_dispatch_channel_capacity :
    dispatchChannel.maxBufferSize = 0 ∧
    ∀ buffered waitingReceivers : Nat,
      (sendCompletesImmediately dispatchChannel buffered waitingReceivers = true
        ↔ 0 < waitingReceivers) := by
  constructor
  · rfl
  · intro b w
    simp [sendCompletesImmediately, dispatchChannel, create_memory_object_stream,
      anyioDefaultMaxBufferSize]

/-! ## Counting lemmas for traces -/

theorem countEv_append (e : Ev) (l1 l2 : List Ev) :
    countEv e (l1 ++ l2) = countEv e l1 + countEv e l2 := by
  induction l1 with
  | nil => simp [countEv]
  | cons x rest ih => simp [countEv, ih, Nat.add_assoc]

theorem countEv_eq_zero_of_not_mem (e : Ev) (l : List Ev) (h : e ∉ l) :
    countEv e l = 0 := by
  induction l with
  | nil => rfl
  | cons x rest ih =>
      simp only [List.mem_cons, not_or] at h
      have hx : ¬ x = e := fun hh => h.1 hh.symm
      simp [countEv, hx, ih h.2]

theorem countEv_map_range_inj (f : Nat → Ev) (hf : ∀ a b, f a = f b → a = b)
    (i n : Nat) :
    countEv (f i) ((List.range n).map f) = if i < n then 1 else 0 := by
  induction n with
  | zero => simp [countEv]
  | succ n ih =>
      rw [List.range_succ, List.map_append, countEv_append, ih]
      by_cases h2 : f n = f i
      · have hni : n = i := hf _ _ h2
        subst hni
        simp [countEv, Nat.lt_irrefl, Nat.lt_succ_self]
      · have hni : ¬ n = i := fun hh => h2 (by rw [hh])
        simp only [countEv, if_neg h2, Nat.add_zero]
        by_cases h3 : i < n
        · simp [h3, Nat.lt_succ_of_lt h3]
        · have h4 : ¬ i < n + 1 := by omega
          simp [h3, h4]

theorem countEv_map_range_zero (f : Nat → Ev) (e : Ev) (h : ∀ j, f j ≠ e) (n : Nat) :
    countEv e ((List.range n).map f) = 0 := by
  apply countEv_eq_zero_of_not_mem
  simp only [List.mem_map]
  rintro ⟨j, _, hj⟩
  exact h j hj

/-! ## C4 -/

/-- C4: for every received task (with a registered name) whose execution
raises an Exception: each registered on-exception hook is invoked exactly
once with the raised exception, no on-completion hook fires, the ack
context commits no acknowledgment (the message is left unacknowledged), the
exception does not escape the loop body, and the executor loop continues to
the remaining messages exactly as if it had started there. -/
theorem c4_exception_path (cfg : WorkerCfg) (f : TaskRecord → Outcome) (st : WorkerState)
    (bt : BrokerTask) (rest : List BrokerTask) (e : PyErr)
    (hreg : bt.task.task_name ∈ cfg.registry)
    (hexec : f bt.task = Outcome.raised e) :
    (∀ i, i < cfg.numExcHooks →
      countEv (Ev.excHook i bt.task.id e) (execOne cfg f st bt).evs = 1) ∧
    (∀ i tid v, Ev.compHook i tid v ∉ (execOne cfg f st bt).evs) ∧
    Ev.ackCommit bt.task.id ∉ (execOne cfg f st bt).evs ∧
    (execOne cfg f st bt).died = none ∧
    workerLoop cfg f st (bt :: rest) =
      ⟨(execOne cfg f st bt).evs ++ (workerLoop cfg f (execOne cfg f st bt).st rest).evs,
       (workerLoop cfg f (execOne cfg f st bt).st rest).st,
       (workerLoop cfg f (execOne cfg f st bt).st rest).died⟩ := by
  refine ⟨?_, ?_, ?_, ?_, ?_⟩
  · intro i hi
    have hcount := countEv_map_range_inj (fun j => Ev.excHook j bt.task.id e)
      (fun a b hh => by simpa using hh) i cfg.numExcHooks
    simp [execOne, hreg, hexec, countEv, countEv_append, hcount, hi]
  · intro i tid v
    simp [execOne, hreg, hexec]
  · simp [execOne, hreg, hexec]
  · simp [execOne, hreg, hexec]
  · simp [workerLoop, execOne, hreg, hexec]

/-- Witness for C4 at a concrete raising execution. -/
theorem c4_witness :
    btKnown.task.task_name ∈ cfgRB.registry ∧
    execRaiseFn btKnown.task = Outcome.raised (PyErr.userError "boom") ∧
    ((∀ i, i < cfgRB.numExcHooks →
        countEv (Ev.excHook i btKnown.task.id (PyErr.userError "boom"))
          (execOne cfgRB execRaiseFn emptyState btKnown).evs = 1) ∧
      (∀ i tid v, Ev.compHook i tid v ∉ (execOne cfgRB execRaiseFn emptyState btKnown).evs) ∧
      Ev.ackCommit btKnown.task.id ∉ (execOne cfgRB execRaiseFn emptyState btKnown).evs ∧
      (execOne cfgRB execRaiseFn emptyState btKnown).died = none ∧
      workerLoop cfgRB execRaiseFn emptyState (btKnown :: []) =
        ⟨(execOne cfgRB execRaiseFn emptyState btKnown).evs
            ++ (workerLoop cfgRB execRaiseFn (execOne cfgRB execRaiseFn emptyState btKnown).st []).evs,
         (workerLoop cfgRB execRaiseFn (execOne cfgRB execRaiseFn emptyState btKnown).st []).st,
         (workerLoop cfgRB execRaiseFn (execOne cfgRB execRaiseFn emptyState btKnown).st []).died⟩) :=
  ⟨by decide, by decide,
   c4_exception_path cfgRB execRaiseFn emptyState btKnown [] (PyErr.userError "boom")
     (by decide) (by decide)⟩

/-! ## C5 -/

/-- C5: for every received task (with a registered name) that completes
successfully when a result backend is configured: the value stored in the
result backend under the task id equals the value returned by the task
function, each registered on-completion hook is invoked exactly once with
that result, and the full success trace places the storage event before
every completion-hook event; no exception escapes the loop body. -/
theorem c5_success_storage_and_hooks (cfg : WorkerCfg) (f : TaskRecord → Outcome)
    (st : WorkerState) (bt : BrokerTask) (v : PyVal)
    (hreg : bt.task.task_name ∈ cfg.registry)
    (hexec : f bt.task = Outcome.ok v)
    (hrb : cfg.hasResultBackend = true) :
    dictGet bt.task.id (execOne cfg f st bt).st.results = some v ∧
    (∀ i, i < cfg.numCompHooks →
      countEv (Ev.compHook i bt.task.id v) (execOne cfg f st bt).evs = 1) ∧
    (execOne cfg f st bt).evs =
      [Ev.insertActive bt.task.id, Ev.lookupOk bt.task.task_name, Ev.ackCommit bt.task.id,
       Ev.popActive bt.task.id, Ev.storeResult bt.task.id v]
      ++ (List.range cfg.numCompHooks).map (fun i => Ev.compHook i bt.task.id v) ∧
    (execOne cfg f st bt).died = none := by
  refine ⟨?_, ?_, ?_, ?_⟩
  · simp [execOne, hreg, hexec, hrb, dictGet_insert_self]
  · intro i hi
    have hcount := countEv_map_range_inj (fun j => Ev.compHook j bt.task.id v)
      (fun a b hh => by simpa using hh) i cfg.numCompHooks
    simp [execOne, hreg, hexec, hrb, countEv, countEv_append, hcount, hi]
  · simp [execOne, hreg, hexec, hrb]
  · simp [execOne, hreg, hexec]

/-- Witness for C5 at a concrete successful execution. -/
theorem c5_witness :
    btKnown.task.task_name ∈ cfgRB.registry ∧
    execOkFn btKnown.task = Outcome.ok (PyVal.payload "r") ∧
    cfgRB.hasResultBackend = true ∧
    (dictGet btKnown.task.id (execOne cfgRB execOkFn emptyState btKnown).st.results =
        some (PyVal.payload "r") ∧
      (∀ i, i < cfgRB.numCompHooks →
        countEv (Ev.compHook i btKnown.task.id (PyVal.payload "r"))
          (execOne cfgRB execOkFn emptyState btKnown).evs = 1) ∧
      (execOne cfgRB execOkFn emptyState btKnown).evs =
        [Ev.insertActive btKnown.task.id, Ev.lookupOk btKnown.task.task_name,
         Ev.ackCommit btKnown.task.id, Ev.popActive btKnown.task.id,
         Ev.storeResult btKnown.task.id (PyVal.payload "r")]
        ++ (List.range cfgRB.numCompHooks).map
            (fun i => Ev.compHook i btKnown.task.id (PyVal.payload "r")) ∧
      (execOne cfgRB execOkFn emptyState btKnown).died = none) :=
  ⟨by decide, by decide, by decide,
   c5_success_storage_and_hooks cfgRB execOkFn emptyState btKnown (PyVal.payload "r")
     (by decide) (by decide) (by decide)⟩

/-! ## C6 -/

/-- C6 counterexample: a task whose name is not registered is claimed (its
id is inserted into the in-flight registry) but the KeyError raised by the
lookup happens before the try statement, so the guaranteed-cleanup path is
never armed: the executor dies and the id stays in the registry, refuting
the claimed guaranteed removal. -/
theorem c6_counterexample :
    (execOne cfgRB execOkFn emptyState btUnknown).died = some PyErr.keyError ∧
    dictGet "u1" (execOne cfgRB execOkFn emptyState btUnknown).st.active = some btUnknown ∧
    Ev.popActive "u1" ∉ (execOne cfgRB execOkFn emptyState btUnknown).evs := by
  decide

/-- C6 amended: for every task claimed by an executor WHOSE NAME IS IN THE
REGISTRY, the id is inserted exactly once on claim and removed exactly once
via the finally block — on success, exception, and cancellation alike — the
removal following the insert; afterwards the in-flight registry is exactly
what it was before the claim; and while the task is in flight the registry
keys stay free of duplicates.  (A task with an unregistered name escapes
this guarantee, as the counterexample shows.) -/
theorem c6_amended_inflight_span (cfg : WorkerCfg) (f : TaskRecord → Outcome)
    (st : WorkerState) (bt : BrokerTask)
    (hreg : bt.task.task_name ∈ cfg.registry)
    (hfresh : dictGet bt.task.id st.active = none) :
    countEv (Ev.insertActive bt.task.id) (execOne cfg f st bt).evs = 1 ∧
    countEv (Ev.popActive bt.task.id) (execOne cfg f st bt).evs = 1 ∧
    insertBeforePop bt.task.id (execOne cfg f st bt).evs = true ∧
    (execOne cfg f st bt).st.active = st.active ∧
    ((dictKeys st.active).Nodup → (dictKeys (dictInsert bt.task.id bt st.active)).Nodup) := by
  have hpop := dictPop_insert_fresh bt.task.id bt st.active hfresh
  have hnotkeys : bt.task.id ∉ dictKeys st.active :=
    (dictGet_eq_none_iff_not_mem_keys _ _).mp hfresh
  have hnodup : (dictKeys st.active).Nodup →
      (dictKeys (dictInsert bt.task.id bt st.active)).Nodup := by
    intro hnd
    rw [dictInsert_of_get_none _ _ _ hfresh]
    simp only [dictKeys, List.map_append, List.map_cons, List.map_nil]
    rw [List.nodup_append]
    exact ⟨hnd, List.nodup_singleton _, by simpa [dictKeys] using hnotkeys⟩
  cases hout : f bt.task with
  | ok v =>
      refine ⟨?_, ?_, ?_, ?_, hnodup⟩
      · have hz := countEv_map_range_zero (fun j => Ev.compHook j bt.task.id v)
          (Ev.insertActive bt.task.id) (fun j => by simp) cfg.numCompHooks
        cases hb : cfg.hasResultBackend <;>
          simp [execOne, hreg, hout, hb, countEv, countEv_append, hz]
      · have hz := countEv_map_range_zero (fun j => Ev.compHook j bt.task.id v)
          (Ev.popActive bt.task.id) (fun j => by simp) cfg.numCompHooks
        cases hb : cfg.hasResultBackend <;>
          simp [execOne, hreg, hout, hb, countEv, countEv_append, hz]
      · cases hb : cfg.hasResultBackend <;>
          simp [execOne, hreg, hout, hb, insertBeforePop]
      · simp [execOne, hreg, hout, hpop]
  | raised e =>
      refine ⟨?_, ?_, ?_, ?_, hnodup⟩
      · have hz := countEv_map_range_zero (fun j => Ev.excHook j bt.task.id e)
          (Ev.insertActive bt.task.id) (fun j => by simp) cfg.numExcHooks
        simp [execOne, hreg, hout, countEv, countEv_append, hz]
      · have hz := countEv_map_range_zero (fun j => Ev.excHook j bt.task.id e)
          (Ev.popActive bt.task.id) (fun j => by simp) cfg.numExcHooks
        simp [execOne, hreg, hout, countEv, countEv_append, hz]
      · simp [execOne, hreg, hout, insertBeforePop]
      · simp [execOne, hreg, hout, hpop]
  | cancelled =>
      refine ⟨?_, ?_, ?_, ?_, hnodup⟩
      · simp [execOne, hreg, hout, countEv]
      · simp [execOne, hreg, hout, countEv]
      · simp [execOne, hreg, hout, insertBeforePop]
      · simp [execOne, hreg, hout, hpop]

/-- Witness for the amended C6 at a concrete execution. -/
theorem c6_amended_witness :
    btKnown.task.task_name ∈ cfgRB.registry ∧
    dictGet btKnown.task.id emptyState.active = none ∧
    (countEv (Ev.insertActive btKnown.task.id)
        (execOne cfgRB execOkFn emptyState btKnown).evs = 1 ∧
      countEv (Ev.popActive btKnown.task.id)
        (execOne cfgRB execOkFn emptyState btKnown).evs = 1 ∧
      insertBeforePop btKnown.task.id (execOne cfgRB execOkFn emptyState btKnown).evs = true ∧
      (execOne cfgRB execOkFn emptyState btKnown).st.active = emptyState.active ∧
      ((dictKeys emptyState.active).Nodup →
        (dictKeys (dictInsert btKnown.task.id btKnown emptyState.active)).Nodup)) :=
  ⟨by decide, by decide,
   c6_amended_inflight_span cfgRB execOkFn emptyState btKnown (by decide) (by decide)⟩

/-! ## C8 amended -/

theorem afterFirstStop_cons_of_ne (e : IntakeEv) (l : List IntakeEv)
    (h : e ≠ IntakeEv.stopSet) : afterFirstStop (e :: l) = afterFirstStop l := by
  cases e with
  | stopSet => exact absurd rfl h
  | readIssued => rfl
  | readCancelled => rfl
  | ackMsg m => rfl
  | sendMsg m => rfl

theorem stopSet_not_mem_processMessage (n : Nat) (m : BrokerTask) :
    IntakeEv.stopSet ∉ processMessage n m := by
  by_cases h : n ≤ m.task.requeue_count <;> simp [processMessage, h]

theorem readIssued_not_mem_processMessage (n : Nat) (m : BrokerTask) :
    IntakeEv.readIssued ∉ processMessage n m := by
  by_cases h : n ≤ m.task.requeue_count <;> simp [processMessage, h]

theorem stopSet_not_mem_processBatch (n : Nat) (msgs : List BrokerTask) :
    IntakeEv.stopSet ∉ processBatch n msgs := by
  induction msgs with
  | nil => simp [processBatch]
  | cons m rest ih =>
      simp only [processBatch, List.mem_append, not_or]
      exact ⟨stopSet_not_mem_processMessage n m, ih⟩

theorem readIssued_not_mem_processBatch (n : Nat) (msgs : List BrokerTask) :
    IntakeEv.readIssued ∉ processBatch n msgs := by
  induction msgs with
  | nil => simp [processBatch]
  | cons m rest ih =>
      simp only [processBatch, List.mem_append, not_or]
      exact ⟨readIssued_not_mem_processMessage n m, ih⟩

theorem afterFirstStop_append_of_not_mem (l1 l2 : List IntakeEv)
    (h : IntakeEv.stopSet ∉ l1) : afterFirstStop (l1 ++ l2) = afterFirstStop l2 := by
  induction l1 with
  | nil => rfl
  | cons x rest ih =>
      simp only [List.mem_cons, not_or] at h
      rw [List.cons_append, afterFirstStop_cons_of_ne x _ (Ne.symm h.1), ih h.2]

theorem all_isNotReadIssued_of_not_mem (l : List IntakeEv)
    (h : IntakeEv.readIssued ∉ l) : l.all isNotReadIssued = true := by
  rw [List.all_eq_true]
  intro x hx
  cases x with
  | readIssued => exact absurd hx h
  | stopSet => rfl
  | readCancelled => rfl
  | ackMsg m => rfl
  | sendMsg m => rfl

/-- C8 amended: the stop signal is monotonic for broker reads — in every
schedule, once the stop event is set the intake loop issues no further
broker read; however, the batch of a read that had already completed when
the stop was observed may still be sent into the dispatch channel before
the loop exits (which is what the counterexample exhibits). -/
theorem c8_amended_no_read_after_stop (n : Nat) (sched : List IntakeSched) :
    noReadAfterStop (intakeLoop n sched) = true := by
  induction sched with
  | nil => rfl
  | cons s rest ih =>
      cases s with
      | stopDuringRead => rfl
      | batch msgs stopObserved =>
          cases stopObserved with
          | true =>
              unfold noReadAfterStop
              rw [intakeLoop]
              rw [if_pos rfl]
              rw [afterFirstStop_cons_of_ne _ _ (by simp)]
              rw [afterFirstStop]
              exact all_isNotReadIssued_of_not_mem _ (readIssued_not_mem_processBatch n msgs)
          | false =>
              unfold noReadAfterStop
              rw [intakeLoop]
              rw [if_neg (by simp)]
              rw [afterFirstStop_cons_of_ne _ _ (by simp)]
              rw [afterFirstStop_append_of_not_mem _ _ (stopSet_not_mem_processBatch n msgs)]
              exact ih

/-! ## C9 helper lemmas -/

theorem dependencies_values_ctx (params : List Param) (kv : String × PyType)
    (h : kv ∈ dependencies_to_inject params [PyType.executionContextType]) :
    kv.2 = PyType.executionContextType := by
  simp only [dependencies_to_inject, List.mem_filterMap] at h
  obtain ⟨p, _, hp⟩ := h
  cases hannot : p.annot with
  | none => rw [hannot] at hp; simp at hp
  | some t =>
      rw [hannot] at hp
      cases t with
      | executionContextType =>
          simp at hp
          rw [← hp]
      | otherType s =>
          simp at hp

theorem dependencies_mem_of_param (params : List Param) (p : Param)
    (hp : p ∈ params) (ha : p.annot = some PyType.executionContextType) :
    (p.name, PyType.executionContextType) ∈
      dependencies_to_inject params [PyType.executionContextType] := by
  simp only [dependencies_to_inject, List.mem_filterMap]
  refine ⟨p, hp, ?_⟩
  rw [ha]
  simp

theorem dictGet_append_left {α : Type} (k : String) (v : α) (l1 l2 : List (String × α))
    (h : dictGet k l1 = some v) : dictGet k (l1 ++ l2) = some v := by
  induction l1 with
  | nil => simp [dictGet] at h
  | cons p rest ih =>
      by_cases hp : p.1 = k
      · rw [dictGet, if_pos hp] at h
        rw [List.cons_append, dictGet, if_pos hp]
        exact h
      · rw [dictGet, if_neg hp] at h
        rw [List.cons_append, dictGet, if_neg hp]
        exact ih h

theorem dictGet_append_single_self {α : Type} (k : String) (v : α)
    (kw : List (String × α)) (h : dictGet k kw = none) :
    dictGet k (kw ++ [(k, v)]) = some v := by
  induction kw with
  | nil => simp [dictGet]
  | cons p rest ih =>
      by_cases hp : p.1 = k
      · rw [dictGet, if_pos hp] at h
        simp at h
      · rw [dictGet, if_neg hp] at h
        rw [List.cons_append, dictGet, if_neg hp]
        exact ih h

theorem dictGet_append_single_other {α : Type} (k k2 : String) (v2 : α)
    (kw : List (String × α)) (hne : k2 ≠ k) (h : dictGet k kw = none) :
    dictGet k (kw ++ [(k2, v2)]) = none := by
  induction kw with
  | nil => simp [dictGet, hne]
  | cons p rest ih =>
      by_cases hp : p.1 = k
      · rw [dictGet, if_pos hp] at h
        simp at h
      · rw [dictGet, if_neg hp] at h
        rw [List.cons_append, dictGet, if_neg hp]
        exact ih h

theorem kwSetdefault_get_self (k : String) (v : PyVal) (kw : List (String × PyVal))
    (h : dictGet k kw = none) : dictGet k (kwSetdefault k v kw) = some v := by
  rw [kwSetdefault, if_neg (by rw [h]; simp)]
  exact dictGet_append_single_self k v kw h

theorem kwSetdefault_get_preserved (k k2 : String) (v v2 : PyVal)
    (kw : List (String × PyVal)) (h : dictGet k kw = some v) :
    dictGet k (kwSetdefault k2 v2 kw) = some v := by
  rw [kwSetdefault]
  by_cases hs : (dictGet k2 kw).isSome
  · rw [if_pos hs]
    exact h
  · rw [if_neg hs]
    exact dictGet_append_left k v kw [(k2, v2)] h

theorem kwSetdefault_get_none_other (k k2 : String) (v2 : PyVal)
    (kw : List (String × PyVal)) (hne : k2 ≠ k) (h : dictGet k kw = none) :
    dictGet k (kwSetdefault k2 v2 kw) = none := by
  rw [kwSetdefault]
  by_cases hs : (dictGet k2 kw).isSome
  · rw [if_pos hs]
    exact h
  · rw [if_neg hs]
    exact dictGet_append_single_other k k2 v2 kw hne h

theorem inject_fold_ok (sharedCtx : PyVal) (deps : List (String × PyType))
    (hdeps : ∀ kv ∈ deps, kv.2 = PyType.executionContextType)
    (kw : List (String × PyVal)) :
    deps.foldl (injectStep sharedCtx) (Except.ok kw) =
      Except.ok (deps.foldl (fun k kv => kwSetdefault kv.1 sharedCtx k) kw) := by
  induction deps generalizing kw with
  | nil => rfl
  | cons kv rest ih =>
      have hv := hdeps kv (List.mem_cons_self kv rest)
      rw [List.foldl_cons, List.foldl_cons]
      rw [show injectStep sharedCtx (Except.ok kw) kv =
            Except.ok (kwSetdefault kv.1 sharedCtx kw) by
          rw [injectStep, hv]]
      exact ih (fun kv2 h2 => hdeps kv2 (List.mem_cons_of_mem kv h2)) _

theorem fold_setdefault_preserved (sharedCtx : PyVal) (deps : List (String × PyType))
    (k : String) (v : PyVal) (kw : List (String × PyVal))
    (h : dictGet k kw = some v) :
    dictGet k (deps.foldl (fun kk kv => kwSetdefault kv.1 sharedCtx kk) kw) = some v := by
  induction deps generalizing kw with
  | nil => exact h
  | cons kv rest ih =>
      rw [List.foldl_cons]
      exact ih _ (kwSetdefault_get_preserved k kv.1 v sharedCtx kw h)

theorem fold_setdefault_get_ctx (sharedCtx : PyVal) :
    ∀ (deps : List (String × PyType)) (k : String) (kw : List (String × PyVal)),
      (k, PyType.executionContextType) ∈ deps → dictGet k kw = none →
      dictGet k (deps.foldl (fun kk kv => kwSetdefault kv.1 sharedCtx kk) kw) =
        some sharedCtx := by
  intro deps
  induction deps with
  | nil =>
      intro k kw hmem _
      simp at hmem
  | cons kv rest ih =>
      intro k kw hmem h
      rw [List.foldl_cons]
      by_cases hk : kv.1 = k
      · have hset : dictGet k (kwSetdefault kv.1 sharedCtx kw) = some sharedCtx := by
          rw [hk]
          exact kwSetdefault_get_self k sharedCtx kw h
        exact fold_setdefault_preserved sharedCtx rest k sharedCtx _ hset
      · rcases List.mem_cons.mp hmem with heq | hrest
        · exact absurd (congrArg Prod.fst heq.symm) hk
        · exact ih k _ hrest (kwSetdefault_get_none_other k kv.1 sharedCtx kw hk h)

/-! ## C9 -/

/-- C9: for every task function signature, every parameter whose declared
annotation is the ExecutionContext class is supplied the single shared
ExecutionContext instance of the worker (the object built once in __init__,
hence literally the same value on every call, never reconstructed), and the
unrecognized-injectable error branch (raise ValueError) is unreachable: the
injection stage returns normally on every input, because every entry
collected by _dependencies_to_inject with types=(ExecutionContext,) has the
ExecutionContext annotation.  The kwargs produced by deserialization are
assumed not to bind the injected parameter already (the injection uses
setdefault). -/
theorem c9_injection_shared_context (w : AsyncWorkerCtx) (params : List Param)
    (kwargs : List (String × PyVal)) (p : Param)
    (hp : p ∈ params) (ha : p.annot = some PyType.executionContextType)
    (hk : dictGet p.name kwargs = none) :
    (∀ (ps : List Param) (ks : List (String × PyVal)), ∃ kw,
      callTaskInjection w ps ks = Except.ok kw) ∧
    ∃ kw, callTaskInjection w params kwargs = Except.ok kw ∧
      dictGet p.name kw = some (PyVal.ctxVal w.contextInstance) := by
  have hok : ∀ (ps : List Param) (ks : List (String × PyVal)),
      callTaskInjection w ps ks = Except.ok
        ((dependencies_to_inject ps [PyType.executionContextType]).foldl
          (fun kk kv => kwSetdefault kv.1 w.sharedExecutionContext kk) ks) := by
    intro ps ks
    unfold callTaskInjection injectDependencies
    exact inject_fold_ok w.sharedExecutionContext _
      (fun kv h => dependencies_values_ctx ps kv h) ks
  constructor
  · intro ps ks
    exact ⟨_, hok ps ks⟩
  · refine ⟨_, hok params kwargs, ?_⟩
    have hmem := dependencies_mem_of_param params p hp ha
    have hg := fold_setdefault_get_ctx w.sharedExecutionContext
      (dependencies_to_inject params [PyType.executionContextType]) p.name kwargs hmem hk
    simpa [AsyncWorkerCtx.sharedExecutionContext] using hg

/-- Witness for C9: a signature with an ExecutionContext parameter, an
int-annotated parameter and an unannotated parameter, with empty kwargs. -/
theorem c9_witness :
    ((⟨"ctx", some PyType.executionContextType⟩ : Param) ∈
      [(⟨"ctx", some PyType.executionContextType⟩ : Param),
       ⟨"a", some (PyType.otherType "int")⟩, ⟨"b", none⟩]) ∧
    (⟨"ctx", some PyType.executionContextType⟩ : Param).annot =
      some PyType.executionContextType ∧
    dictGet (Param.name ⟨"ctx", some PyType.executionContextType⟩)
      ([] : List (String × PyVal)) = none ∧
    ((∀ (ps : List Param) (ks : List (String × PyVal)), ∃ kw,
        callTaskInjection ⟨7⟩ ps ks = Except.ok kw) ∧
      ∃ kw, callTaskInjection ⟨7⟩
          [(⟨"ctx", some PyType.executionContextType⟩ : Param),
           ⟨"a", some (PyType.otherType "int")⟩, ⟨"b", none⟩]
          ([] : List (String × PyVal)) = Except.ok kw ∧
        dictGet (Param.name ⟨"ctx", some PyType.executionContextType⟩) kw =
          some (PyVal.ctxVal (AsyncWorkerCtx.contextInstance ⟨7⟩))) :=
  ⟨by decide, by decide, by decide,
   c9_injection_shared_context ⟨7⟩
     [(⟨"ctx", some PyType.executionContextType⟩ : Param),
      ⟨"a", some (PyType.otherType "int")⟩, ⟨"b", none⟩]
     ([] : List (String × PyVal))
     (⟨"ctx", some PyType.executionContextType⟩ : Param)
     (by decide) (by decide) (by decide)⟩
